import Mathlib

/-!
Verification of the Alist storage adapter
(`app/modules/filemanager/storages/alist.py`).

The adapter translates a generic file-management interface into calls
against the Alist HTTP API.  We embed each operation as a pure Lean
function of the HTTP response it would receive (response-level model),
and embed the stateful parts (directory creation, token cache, the
recursive snapshot) as explicit state-passing functions over a model of
the remote server (session-level model).
-/

namespace AlistAdapter

/-- Python runtime errors that the adapter can raise on unexpected data. -/
inductive PyErr where
  | attributeError
  | keyError
  | typeError
  deriving DecidableEq, Repr

/-- Modelled from the spec: the shared FileItem schema (`app.schemas.FileItem`,
not under `src/`).  Attributes per spec section 3: storage backend identifier,
kind (`file` or `dir`), full path, name, base name, extension, size,
last-modified timestamp, thumbnail. -/
structure FileItem where
  storage : String := "alist"
  type : String := ""
  path : String := ""
  name : String := ""
  basename : String := ""
  extension : String := ""
  size : Nat := 0
  modify_time : String := ""
  thumbnail : String := ""
  deriving DecidableEq, Repr

/-- Modelled from the spec: the storage backend identifier
(`StorageSchema.Alist.value`, not under `src/`). -/
def alistSchemaValue : String := "alist"

/-! ### Embedding of the `pathlib.PurePosixPath` operations used by the code

`Path(s).parent.as_posix()`, `Path(s).name`, `Path(s).stem`, `Path(s).suffix`.
A posix path is parsed into its component list (dropping empty components and
`.` just as `pathlib` does), and rendered back with a leading `/` when
absolute. -/

/-- Split a character list at `/`. -/
def splitSlashAux : List Char → List Char → List String
  | [], acc => [String.mk acc.reverse]
  | c :: rest, acc =>
    if c = '/' then String.mk acc.reverse :: splitSlashAux rest []
    else splitSlashAux rest (c :: acc)

/-- Component list of a posix path string, as `pathlib` parses it: split at
`/` and drop empty components and `.`. -/
def pathParts (s : String) : List String :=
  (splitSlashAux s.toList []).filter (fun c => c ≠ "" && c ≠ ".")

/-- Whether the path string is absolute. -/
def pathIsAbs (s : String) : Bool := s.toList.head? == some '/'

/-- Join components with `/`. -/
def joinSlash : List String → String
  | [] => ""
  | [x] => x
  | x :: rest => x ++ "/" ++ joinSlash rest

/-- Render a component list back to a posix string, as `as_posix` does. -/
def posixRender (abs : Bool) (parts : List String) : String :=
  match parts with
  | [] => if abs then "/" else "."
  | _ => (if abs then "/" else "") ++ joinSlash parts

/-- `Path(s).parent.as_posix()`. -/
def pyParentPosix (s : String) : String :=
  posixRender (pathIsAbs s) (pathParts s).dropLast

/-- `Path(s).name`: the final path component, or `""` for a root/empty path. -/
def pyName (s : String) : String :=
  ((pathParts s).getLast?).getD ""

/-- Split a final component at its last dot following CPython's rule: the
suffix is `name[i:]` when the last dot index `i` satisfies
`0 < i < len(name) - 1`, and empty otherwise. -/
def pySplitExt (n : String) : String × String :=
  let cs := n.toList
  let j := cs.reverse.indexOf '.'
  if j = cs.length then (n, "")
  else
    let i := cs.length - 1 - j
    if 0 < i ∧ i < cs.length - 1 then
      (String.mk (cs.take i), String.mk (cs.drop i))
    else (n, "")

/-- `Path(s).stem`. -/
def pyStem (s : String) : String := (pySplitExt (pyName s)).1

/-- `Path(s).suffix`. -/
def pySuffix (s : String) : String := (pySplitExt (pyName s)).2

/-! ### Response-level model

Each operation is a pure function of the `requests` response it receives.
`none` stands for a transport failure (`RequestUtils.post_res` returns
`None`); `some (status, body)` is a received response with its HTTP status
code and parsed JSON body.  Bodies are given structurally as the uniform
`{code, message, data}` envelope. -/

/-- Envelope of responses whose `data` field is never read. -/
structure BasicResp where
  code : Int
  message : String
  deriving DecidableEq, Repr

/-- One entry of `data.content` in an `/api/fs/list` response. -/
structure AlistEntry where
  name : String
  size : Nat
  is_dir : Bool
  modified : String
  thumb : String
  deriving DecidableEq, Repr

/-- `data` of an `/api/fs/list` response. -/
structure ListData where
  content : List AlistEntry
  deriving DecidableEq, Repr

/-- Envelope of an `/api/fs/list` response; `data` is `null` on failure. -/
structure ListResp where
  code : Int
  message : String
  data : Option ListData
  deriving DecidableEq, Repr

/-- `data` of an `/api/fs/get` response. -/
structure GetData where
  name : String
  size : Nat
  is_dir : Bool
  modified : String
  thumb : String
  sign : String
  raw_url : String
  deriving DecidableEq, Repr

/-- Envelope of an `/api/fs/get` response; `data` is `null` on failure. -/
structure GetResp where
  code : Int
  message : String
  data : Option GetData
  deriving DecidableEq, Repr

/-- `requests.Response.__bool__`: a response is truthy when its status code
is below 400.  `if not resp:` in Python is `resp = none` or a falsy status. -/
def respTruthy : Option (Nat × α) → Bool
  | none => false
  | some (st, _) => st < 400

/-- The FileItem built by `Alist.list` from one entry of `data.content`
(source lines 192-205). -/
def mkListItem (fileitem : FileItem) (e : AlistEntry) : FileItem :=
  { storage := alistSchemaValue
    type := if e.is_dir then "dir" else "file"
    path := fileitem.path ++ "/" ++ e.name
    name := e.name
    basename := pyStem e.name
    extension := pySuffix e.name
    size := e.size
    modify_time := e.modified
    thumbnail := e.thumb }

/-- `Alist.list` (source lines 116-205).  The method does not guard against
`resp` being `None`, so a transport failure raises `AttributeError` when
`resp.status_code` is read; a non-200 HTTP status or a non-200 envelope code
returns `None`; on success each entry of `data.content` is mapped to a
FileItem. -/
def list_m (resp : Option (Nat × ListResp)) (fileitem : FileItem) :
    Except PyErr (Option (List FileItem)) :=
  match resp with
  | none => .error .attributeError
  | some (status, body) =>
    if status ≠ 200 then .ok none
    else if body.code ≠ 200 then .ok none
    else
      match body.data with
      | none => .error .typeError
      | some d => .ok (some (d.content.map (mkListItem fileitem)))

/-- The FileItem built by `Alist.get_item` from `data` of an `/api/fs/get`
response (source lines 327-337); `pathStr` is the posix rendering of the
`path` argument. -/
def mkGetItem (pathStr : String) (d : GetData) : FileItem :=
  { storage := alistSchemaValue
    type := if d.is_dir then "dir" else "file"
    path := pathStr
    name := d.name
    basename := pyStem d.name
    extension := pySuffix d.name
    size := d.size
    modify_time := d.modified
    thumbnail := d.thumb }

/-- `Alist.get_item` (source lines 258-337): `None` on transport failure
(guarded with `if resp is None`), non-200 HTTP status, or non-200 envelope
code; otherwise a FileItem built from `data`. -/
def get_item_m (resp : Option (Nat × GetResp)) (pathStr : String) :
    Except PyErr (Option FileItem) :=
  match resp with
  | none => .ok none
  | some (status, body) =>
    if status ≠ 200 then .ok none
    else if body.code ≠ 200 then .ok none
    else
      match body.data with
      | none => .error .typeError
      | some d => .ok (some (mkGetItem pathStr d))

/-- `Alist.create_folder` response handling (source lines 207-241): `None` on
transport failure, non-200 status, or non-200 envelope code; on success the
method returns `self.get_item(path)`, modelled here by the path it fetches. -/
def create_folder_m (resp : Option (Nat × BasicResp)) (pathStr : String) :
    Option String :=
  match resp with
  | none => none
  | some (status, body) =>
    if status ≠ 200 then none
    else if body.code ≠ 200 then none
    else some pathStr

/-- `Alist.delete` (source lines 345-385): `False` on transport failure,
non-200 status, or non-200 envelope code; `True` otherwise. -/
def delete_m (resp : Option (Nat × BasicResp)) : Bool :=
  match resp with
  | none => false
  | some (status, body) =>
    if status ≠ 200 then false
    else if body.code ≠ 200 then false
    else true

/-- `Alist.rename` (source lines 387-426): the first guard is `if not resp:`,
which is response truthiness (transport failure or status at least 400);
then non-200 status and non-200 envelope code return `False`. -/
def rename_m (resp : Option (Nat × BasicResp)) : Bool :=
  if ¬ respTruthy resp then false
  else
    match resp with
    | none => false
    | some (status, body) =>
      if status ≠ 200 then false
      else if body.code ≠ 200 then false
      else true

/-- `Alist.upload` (source lines 502-526): the method reads only
`resp.status_code` and never parses the response body; it returns `None`
when the status is not 200 and the unmodified `fileitem` otherwise.  A
transport failure raises `AttributeError` (no `None` guard). -/
def upload_m (resp : Option (Nat × BasicResp)) (fileitem : FileItem) :
    Except PyErr (Option FileItem) :=
  match resp with
  | none => .error .attributeError
  | some (status, _) =>
    if status ≠ 200 then .ok none
    else .ok (some fileitem)

/-! ### Copy and move -/

/-- The `target` argument of copy and move: a FileItem or a path. -/
inductive CMTarget where
  | item (fi : FileItem)
  | path (p : String)
  deriving DecidableEq, Repr

/-- `Path(target).name`: the final path component of the target.  For a
FileItem target this is the final component of its path (the schema treats
the item as its path). -/
def CMTarget.lastName : CMTarget → String
  | .item fi => pyName fi.path
  | .path p => pyName p

/-- The parent directory of the target, as posix
(`Path(target.path).parent.as_posix()` for a FileItem,
`target.parent.as_posix()` for a path). -/
def CMTarget.parentDir : CMTarget → String
  | .item fi => pyParentPosix fi.path
  | .path p => pyParentPosix p

/-- `Alist.__get_copy_and_move_data` (source lines 534-555): returns source
directory, target directory, name list, and validity flag; invalid (with
empty data) when the target's final component differs from the item name. -/
def get_copy_and_move_data (fileitem : FileItem) (target : CMTarget) :
    String × String × List String × Bool :=
  let name := target.lastName
  if fileitem.name ≠ name then ("", "", [], false)
  else
    let src_dir := pyParentPosix fileitem.path
    let traget_dir := target.parentDir
    (src_dir, traget_dir, [name], true)

/-- Body of an `/api/fs/copy` or `/api/fs/move` request. -/
structure CMBody where
  src_dir : String
  dst_dir : String
  names : List String
  deriving DecidableEq, Repr

/-- A copy or move HTTP request: endpoint path and JSON body. -/
structure CMReq where
  endpoint : String
  body : CMBody
  deriving DecidableEq, Repr

/-- Shared response handling of `Alist.copy` and `Alist.move`: `False` on
transport failure (`if resp is None`), non-200 status, or non-200 envelope
code, `True` otherwise. -/
def cmRespOk (resp : Option (Nat × BasicResp)) : Bool :=
  match resp with
  | none => false
  | some (status, body) =>
    if status ≠ 200 then false
    else if body.code ≠ 200 then false
    else true

/-- `Alist.copy` (source lines 557-611), returning its boolean result and
the list of HTTP requests it issued. -/
def copy_m (fileitem : FileItem) (target : CMTarget)
    (resp : Option (Nat × BasicResp)) : Bool × List CMReq :=
  let (src_dir, dst_dir, names, is_valid) := get_copy_and_move_data fileitem target
  if ¬ is_valid then (false, [])
  else
    (cmRespOk resp, [⟨"/api/fs/copy", ⟨src_dir, dst_dir, names⟩⟩])

/-- `Alist.move` (source lines 613-665), returning its boolean result and
the list of HTTP requests it issued. -/
def move_m (fileitem : FileItem) (target : CMTarget)
    (resp : Option (Nat × BasicResp)) : Bool × List CMReq :=
  let (src_dir, dst_dir, names, is_valid) := get_copy_and_move_data fileitem target
  if ¬ is_valid then (false, [])
  else
    (cmRespOk resp, [⟨"/api/fs/move", ⟨src_dir, dst_dir, names⟩⟩])

/-! ### Download -/

/-- Modelled from the spec: `UrlUtils.adapt_request_url` (not under `src/`)
joins the normalized base URL with a relative API path; modelled as
concatenation of the standardized base with the relative path. -/
def adaptRequestUrl (base relPath : String) : String := base ++ relPath

/-- Outcome of `Alist.download`: the returned local path (or no result) and
the URL the file was fetched from (absent when the method failed before the
fetch). -/
structure DlOutcome where
  result : Option String
  url : Option String
  deriving DecidableEq, Repr

/-- `Alist.download` (source lines 428-500): the first guard is
`if not resp:` (response truthiness); then non-200 status and non-200
envelope code return no result; otherwise the download URL is `raw_url`
when `raw_url=True`, and the base URL joined with `"/d" + fileitem.path`
plus `"?sign=" + sign` exactly when `sign` is non-empty, when
`raw_url=False`.  After fetching and writing, the local path is returned
only if the file exists. -/
def download_m (resp : Option (Nat × GetResp)) (base : String)
    (fileitem : FileItem) (localPath : String) (raw_url : Bool)
    (existsAfterWrite : Bool) : Except PyErr DlOutcome :=
  if ¬ respTruthy resp then .ok ⟨none, none⟩
  else
    match resp with
    | none => .ok ⟨none, none⟩
    | some (status, body) =>
      if status ≠ 200 then .ok ⟨none, none⟩
      else if body.code ≠ 200 then .ok ⟨none, none⟩
      else
        match body.data with
        | none => .error .typeError
        | some d =>
          let download_url :=
            if raw_url then d.raw_url
            else
              let u := adaptRequestUrl base ("/d" ++ fileitem.path)
              if d.sign ≠ "" then u ++ "?sign=" ++ d.sign else u
          if existsAfterWrite then .ok ⟨some localPath, some download_url⟩
          else .ok ⟨none, some download_url⟩

/-! ### Token generation (`Alist.__generate_token`, source lines 63-102)

The login response body is modelled as JSON so that the dynamic dictionary
accesses `result["code"]`, `result["data"]["token"]` are faithful: a missing
key raises `KeyError`, indexing into `null` (or any non-object) raises
`TypeError`. -/

/-- A JSON value. -/
inductive Json where
  | null
  | bool (b : Bool)
  | num (n : Int)
  | str (s : String)
  | arr (l : List Json)
  | obj (fields : List (String × Json))
  deriving Repr

/-- Python's `v == 200` on a parsed JSON value. -/
def jEq200 : Json → Bool
  | .num n => n == 200
  | _ => false

/-- Python dictionary indexing `v[k]`: `KeyError` when the key is missing
from an object, `TypeError` when `v` is not an object. -/
def jIndex (v : Json) (k : String) : Except PyErr Json :=
  match v with
  | .obj fields =>
    match fields.lookup k with
    | some w => .ok w
    | none => .error .keyError
  | _ => .error .typeError

/-- Log levels used by the adapter. -/
inductive LogLevel where
  | debug
  | warning
  | critical
  deriving DecidableEq, Repr

/-- `Alist.__generate_token` applied to the login response (source lines
93-102): a non-200 HTTP status logs a warning and parsing proceeds anyway;
a parsed envelope whose `code` is not 200 logs a critical error; the debug
entry of source line 101 is then logged unconditionally, before the return
expression `result["data"]["token"]` is evaluated — so it appears even when
that evaluation raises (when `data` is null or the keys are missing).
Returns the produced value (or raised error) together with the log
entries. -/
def generate_token_resp (status : Nat) (body : Json) :
    Except PyErr Json × List LogLevel :=
  let warnLogs : List LogLevel := if status ≠ 200 then [.warning] else []
  match jIndex body "code" with
  | .error e => (.error e, warnLogs)
  | .ok c =>
    let critLogs : List LogLevel := if ¬ jEq200 c then [.critical] else []
    match jIndex body "data" with
    | .error e => (.error e, warnLogs ++ critLogs ++ [.debug])
    | .ok d =>
      match jIndex d "token" with
      | .error e => (.error e, warnLogs ++ critLogs ++ [.debug])
      | .ok tok => (.ok tok, warnLogs ++ critLogs ++ [.debug])

/-! ### Token cache (`Alist.__get_valuable_toke`, source lines 51-61, and the
`TTLCache` wrapper on `__generate_token`, source line 64)

The cache is a single slot holding the generated token and its expiry
instant; `cachetools.TTLCache` treats an entry as valid while the current
time is strictly below the expiry, which is the insertion time plus the
time-to-live. -/

/-- Time-to-live of the generated token: two days minus five minutes, in
seconds (source line 64). -/
def tokenTTL : Nat := 60 * 60 * 24 * 2 - 60 * 5

/-- The single-slot token cache: generated token and expiry instant. -/
abbrev TokenCache := Option (String × Nat)

/-- Adapter configuration (`self.get_conf()`): base URL, optional static
token, credentials. -/
structure AlistConf where
  url : String := ""
  token : Option String := none
  username : String := ""
  password : String := ""
  deriving DecidableEq, Repr

/-- The cached `Alist.__generate_token` at instant `now`: a valid cache
entry is returned with no login request; otherwise a login is issued
(producing `loginResult`) and cached with expiry `now + tokenTTL`.  The
third component counts the login requests issued (0 or 1). -/
def generate_token_cached (loginResult : String) (now : Nat)
    (cache : TokenCache) : String × TokenCache × Nat :=
  match cache with
  | some (v, exp) =>
    if now < exp then (v, some (v, exp), 0)
    else (loginResult, some (loginResult, now + tokenTTL), 1)
  | none => (loginResult, some (loginResult, now + tokenTTL), 1)

/-- `Alist.__get_valuable_toke` (source lines 51-61): the configured static
token is returned when it is truthy (present and non-empty); otherwise the
cached generated token is used. -/
def get_valuable_toke (conf : AlistConf) (loginResult : String) (now : Nat)
    (cache : TokenCache) : String × TokenCache × Nat :=
  match conf.token with
  | some t => if t ≠ "" then (t, cache, 0)
              else generate_token_cached loginResult now cache
  | none => generate_token_cached loginResult now cache

/-! ### Session-level model of directory creation
(`Alist.get_folder`, `Alist.get_parent`, `Alist.create_folder`,
`Alist.get_item`, source lines 207-343)

The remote server is modelled by the set of directory paths that exist,
each path an absolute component list (`pathlib` round-trips
`Path(p.as_posix())` back to `p`, so component lists are a faithful
representation of the `Path` values the code passes around).  `get_item`
succeeds exactly on existing paths, and `mkdir` always succeeds and adds
the path.  Every issued HTTP request is recorded. -/

/-- The set of directory paths existing on the server. -/
abbrev DirSet := List (List String)

/-- An HTTP request of the session-level model. -/
inductive SReq where
  | fsGet (p : List String)
  | fsMkdir (p : List String)
  deriving DecidableEq, Repr

/-- The mkdir requests among a request trace. -/
def mkdirsOf (reqs : List SReq) : List (List String) :=
  reqs.filterMap (fun r => match r with
    | .fsMkdir p => some p
    | .fsGet _ => none)

/-- Session-level `Alist.get_item` (source lines 258-337): one `/api/fs/get`
request; the item (represented by its component path) exists exactly when
the path is on the server. -/
def get_itemS (fs : DirSet) (p : List String) :
    Option (List String) × List SReq :=
  if p ∈ fs then (some p, [.fsGet p]) else (none, [.fsGet p])

/-- Session-level `Alist.create_folder` (source lines 207-241): the new path
is the parent item's path extended by `name`
(`path = Path(fileitem.path) / name`); one `/api/fs/mkdir` request (which
succeeds and adds the path), then `self.get_item(path)`. -/
def create_folderS (fs : DirSet) (parentPath : List String) (name : String) :
    Option (List String) × DirSet × List SReq :=
  let path := parentPath ++ [name]
  let fs' := path :: fs
  let (item, getReqs) := get_itemS fs' path
  (item, fs', .fsMkdir path :: getReqs)

/-- Session-level `Alist.get_folder` (source lines 243-256) together with
`Alist.get_parent` (source lines 339-343), which are mutually recursive:
`get_folder(path)` returns `get_item(path)` when the path exists; otherwise
it calls `create_folder(get_parent(item), path.name)`, and `get_parent`
calls `get_folder(Path(path).parent)`.  The recursion walks up through
`Path.parent` (`List.dropLast` on components); at the root the parent is
the root itself, so a missing root diverges — modelled by the outer
`Option` (`none` = divergence).  The result is the returned item, the
updated server state, and the full request trace in issue order. -/
def get_folderS (fs : DirSet) (p : List String) :
    Option (Option (List String) × DirSet × List SReq) :=
  if p ∈ fs then
    some ((get_itemS fs p).1, fs, (get_itemS fs p).2)
  else if hne : p = [] then
    none
  else
    match get_folderS fs p.dropLast with
    | none => none
    | some (none, _, _) => none
    | some (some parentPath, fs1, t1) =>
      let (item, fs2, t2) := create_folderS fs1 parentPath (p.getLast hne)
      some (item, fs2, .fsGet p :: (t1 ++ t2))
  termination_by p.length
  decreasing_by
    simp only [List.length_dropLast]
    exact Nat.sub_lt (List.length_pos.mpr hne) Nat.one_pos

/-- The chain of missing directories that `get_folder` walks through: the
path itself and its ancestors, upward until the first existing one,
ordered shortest first. -/
def missingChain (fs : DirSet) (p : List String) : List (List String) :=
  if p ∈ fs then []
  else if p = [] then []
  else missingChain fs p.dropLast ++ [p]
  termination_by p.length
  decreasing_by
    simp only [List.length_dropLast]
    rename_i hne
    exact Nat.sub_lt (List.length_pos.mpr hne) Nat.one_pos

/-! ### Session-level model of the recursive snapshot
(`Alist.snapshot`, source lines 685-706)

The remote filesystem is a finite tree; the server resolves a path
(component list) by walking child names.  `snapshot` fetches the starting
item with `get_item` and then traverses: directories are expanded with one
`list` call each, files contribute `path -> size` to the accumulated
mapping, in depth-first order.  The Python recursion is modelled with a
fuel argument (`none` = the traversal crashed or would not terminate,
which happens only when a `list` call fails mid-traversal). -/

/-- A node of the remote filesystem tree. -/
inductive FNode where
  | file (size : Nat)
  | dir (children : List (String × FNode))
  deriving Repr

/-- First child with the given name, as the server resolves a name. -/
def lookupChild (n : String) : List (String × FNode) → Option FNode
  | [] => none
  | (m, c) :: rest => if m = n then some c else lookupChild n rest

/-- Resolve a component path in a tree. -/
def resolve (t : FNode) : List String → Option FNode
  | [] => some t
  | n :: rest =>
    match t with
    | .file _ => none
    | .dir cs =>
      match lookupChild n cs with
      | some c => resolve c rest
      | none => none

mutual
/-- Height of a tree node. -/
def depthT : FNode → Nat
  | .file _ => 0
  | .dir cs => 1 + depthL cs
/-- Maximum height among children. -/
def depthL : List (String × FNode) → Nat
  | [] => 0
  | (_, c) :: rest => max (depthT c) (depthL rest)
end

/-- Child names are distinct, non-empty, and free of `/`. -/
def namesOk : List String → Bool
  | [] => true
  | n :: rest => !(rest.contains n) && n ≠ "" && !(n.data.contains '/') && namesOk rest

mutual
/-- Well-formedness of the remote tree: in every directory the child names
are pairwise distinct, non-empty, and free of path separators. -/
def wfT : FNode → Bool
  | .file _ => true
  | .dir cs => namesOk (cs.map Prod.fst) && wfL cs
/-- Well-formedness of a child list. -/
def wfL : List (String × FNode) → Bool
  | [] => true
  | (_, c) :: rest => wfT c && wfL rest
end

mutual
/-- Defining property of the snapshot (spec section 4.5): the mapping from
full path to size of every non-directory descendant, in depth-first order;
`ps` is the path string of the node. -/
def fileDescendants : FNode → String → List (String × Nat)
  | .file sz, ps => [(ps, sz)]
  | .dir cs, ps => fileDescendantsL cs ps
/-- File descendants contributed by a child list of a directory at `ps`. -/
def fileDescendantsL : List (String × FNode) → String → List (String × Nat)
  | [], _ => []
  | (n, c) :: rest, ps =>
    fileDescendants c (ps ++ "/" ++ n) ++ fileDescendantsL rest ps
end

mutual
/-- Full paths of every directory among a node and its descendants. -/
def dirDescPaths : FNode → String → List String
  | .file _, _ => []
  | .dir cs, ps => ps :: dirDescPathsL cs ps
/-- Directory paths contributed by a child list of a directory at `ps`. -/
def dirDescPathsL : List (String × FNode) → String → List String
  | [], _ => []
  | (n, c) :: rest, ps =>
    dirDescPaths c (ps ++ "/" ++ n) ++ dirDescPathsL rest ps
end

/-- The item state the traversal carries for one node: its path string, its
component path on the server, whether it is a directory, and its size. -/
structure SnapItem where
  pathStr : String
  comps : List String
  isDir : Bool
  size : Nat
  deriving DecidableEq, Repr

/-- Size reported by the server for a node (directory sizes are irrelevant
to the snapshot, which records only files). -/
def nodeSize : FNode → Nat
  | .file sz => sz
  | .dir _ => 0

/-- Whether a node is a directory. -/
def nodeIsDir : FNode → Bool
  | .file _ => false
  | .dir _ => true

/-- One `Alist.list` call at a directory path: the server resolves the path
and returns one entry per child; `none` when the path does not resolve to a
directory (the real call returns no result). -/
def listAt (t : FNode) (p : List String) : Option (List (String × Bool × Nat)) :=
  match resolve t p with
  | some (.dir cs) => some (cs.map (fun nc => (nc.1, nodeIsDir nc.2, nodeSize nc.2)))
  | _ => none

/-- The child item built by `Alist.list` from one entry, as the snapshot
recursion sees it: `path = parent.path + "/" + name` (source line 196). -/
def childSnapItem (it : SnapItem) (e : String × Bool × Nat) : SnapItem :=
  ⟨it.pathStr ++ "/" ++ e.1, it.comps ++ [e.1], e.2.1, e.2.2⟩

mutual
/-- `__snapshot_file` (source lines 691-699): a directory is expanded with
one `list` call and each child is visited recursively; a file records
`path -> size`.  `none` models a crash (a failed `list` call is iterated
without a guard) or exhausted fuel. -/
def snapGo (t : FNode) (fuel : Nat) (it : SnapItem) :
    Option (List (String × Nat)) :=
  match fuel with
  | 0 => none
  | f + 1 =>
    if it.isDir then
      match listAt t it.comps with
      | none => none
      | some es => snapList t f (es.map (childSnapItem it))
    else some [(it.pathStr, it.size)]
  termination_by (fuel, 0)
/-- Visit a list of child items in order, concatenating their records. -/
def snapList (t : FNode) (fuel : Nat) (l : List SnapItem) :
    Option (List (String × Nat)) :=
  match l with
  | [] => some []
  | it :: rest => do
    let a ← snapGo t fuel it
    let b ← snapList t fuel rest
    pure (a ++ b)
  termination_by (fuel, l.length + 1)
end

/-- `Alist.snapshot` (source lines 685-706): resolve the starting path with
`get_item`; an absent item yields the empty mapping; otherwise traverse.
The starting item's path string is the posix rendering of the `path`
argument. -/
def snapshotS (t : FNode) (p : List String) (fuel : Nat) :
    Option (List (String × Nat)) :=
  match resolve t p with
  | none => some []
  | some n => snapGo t fuel ⟨posixRender true p, p, nodeIsDir n, nodeSize n⟩

/-! ## Supporting lemmas -/

/-- The two halves of the stem-suffix split concatenate back to the name. -/
theorem pySplitExt_append (n : String) :
    (pySplitExt n).1 ++ (pySplitExt n).2 = n := by
  apply String.ext
  unfold pySplitExt
  dsimp only
  split
  · simp [String.data_append]
  · split
    · simp [String.data_append, String.toList]
    · simp [String.data_append]

/-- Basename and extension concatenate back to the final path component. -/
theorem pyStem_append_pySuffix (s : String) :
    pyStem s ++ pySuffix s = pyName s := by
  unfold pyStem pySuffix
  exact pySplitExt_append (pyName s)

/-! ### Lemmas about the remote tree -/

/-- A successful child lookup is a member of the child list. -/
theorem lookupChild_mem {n : String} {c : FNode} :
    ∀ {cs : List (String × FNode)}, lookupChild n cs = some c → (n, c) ∈ cs := by
  intro cs
  induction cs with
  | nil => intro h; exact absurd h (by simp [lookupChild])
  | cons hd tl ih =>
    intro h
    rcases hd with ⟨m, c0⟩
    rw [lookupChild] at h
    by_cases hm : m = n
    · subst hm
      simp only [if_true, Option.some.injEq] at h
      subst h
      exact List.mem_cons_self ..
    · simp only [hm, if_false] at h
      exact List.mem_cons_of_mem _ (ih h)

/-- Unpack the head of a well-named list. -/
theorem namesOk_cons {n : String} {l : List String}
    (h : namesOk (n :: l) = true) :
    n ∉ l ∧ n ≠ "" ∧ '/' ∉ n.data ∧ namesOk l = true := by
  rw [namesOk] at h
  simp only [Bool.and_eq_true, Bool.not_eq_true', decide_eq_true_eq] at h
  refine ⟨fun hm => ?_, h.1.1.2, fun hm => ?_, h.2⟩
  · have hc : l.contains n = true := List.elem_eq_true_of_mem hm
    rw [h.1.1.1] at hc
    exact Bool.false_ne_true hc
  · have hc : n.data.contains '/' = true := List.elem_eq_true_of_mem hm
    rw [h.1.2] at hc
    exact Bool.false_ne_true hc

/-- Under distinct child names, membership determines the lookup result. -/
theorem namesOk_lookup {c : FNode} :
    ∀ {cs : List (String × FNode)} {n : String},
      namesOk (cs.map Prod.fst) = true → (n, c) ∈ cs →
      lookupChild n cs = some c := by
  intro cs
  induction cs with
  | nil => intro n _ h; simp at h
  | cons hd tl ih =>
    intro n hok hmem
    rcases hd with ⟨m, c0⟩
    rw [List.map_cons] at hok
    obtain ⟨hnm, _, _, hok'⟩ := namesOk_cons hok
    rw [lookupChild]
    rcases List.mem_cons.mp hmem with heq | htl
    · injection heq with h1 h2
      subst h1
      subst h2
      simp
    · have hne : m ≠ n := by
        intro hmn
        apply hnm
        rw [hmn]
        exact List.mem_map.mpr ⟨(n, c), htl, rfl⟩
      simp only [hne, if_false]
      exact ih hok' htl

/-- Under distinct child names, two children with the same name coincide. -/
theorem namesOk_unique {cs : List (String × FNode)} {n : String}
    {c1 c2 : FNode} (hok : namesOk (cs.map Prod.fst) = true)
    (h1 : (n, c1) ∈ cs) (h2 : (n, c2) ∈ cs) : c1 = c2 := by
  have e1 := namesOk_lookup hok h1
  have e2 := namesOk_lookup hok h2
  rw [e1] at e2
  exact Option.some.injEq .. ▸ e2

/-- Every name in a well-named child list is non-empty and slash-free. -/
theorem namesOk_props :
    ∀ {l : List String}, namesOk l = true →
      ∀ x ∈ l, x ≠ "" ∧ ('/' ∉ x.data) := by
  intro l
  induction l with
  | nil => intro _ x hx; simp at hx
  | cons hd tl ih =>
    intro hok x hx
    obtain ⟨_, hne, hsl, hok'⟩ := namesOk_cons hok
    rcases List.mem_cons.mp hx with rfl | htl
    · exact ⟨hne, hsl⟩
    · exact ih hok' x htl

/-- A member of a well-formed child list is well-formed. -/
theorem wfL_child {c : FNode} :
    ∀ {cs : List (String × FNode)} {n : String},
      wfL cs = true → (n, c) ∈ cs → wfT c = true := by
  intro cs
  induction cs with
  | nil => intro n _ h; simp at h
  | cons hd tl ih =>
    intro n hwf hmem
    rcases hd with ⟨m, c0⟩
    rw [wfL] at hwf
    simp only [Bool.and_eq_true] at hwf
    rcases List.mem_cons.mp hmem with heq | htl
    · rcases Prod.mk.injEq .. ▸ heq with ⟨_, h2⟩
      exact h2 ▸ hwf.1
    · exact ih hwf.2 htl

/-- Resolution of a concatenated path factors through the first part. -/
theorem resolve_append (t : FNode) (p q : List String) :
    resolve t (p ++ q) = (resolve t p).bind (fun u => resolve u q) := by
  induction p generalizing t with
  | nil => simp [resolve]
  | cons n rest ih =>
    rw [List.cons_append]
    cases t with
    | file sz => simp [resolve]
    | dir cs =>
      cases h : lookupChild n cs with
      | none => simp [resolve, h]
      | some c => simp [resolve, h, ih]

/-- Resolution preserves well-formedness. -/
theorem wfT_resolve {t u : FNode} :
    ∀ {p : List String}, wfT t = true → resolve t p = some u →
      wfT u = true := by
  suffices h : ∀ (p : List String) (t u : FNode), wfT t = true →
      resolve t p = some u → wfT u = true from fun {p} => h p t u
  intro p
  induction p with
  | nil =>
    intro t u hwf hres
    simp only [resolve, Option.some.injEq] at hres
    exact hres ▸ hwf
  | cons n rest ih =>
    intro t u hwf hres
    cases t with
    | file sz => simp [resolve] at hres
    | dir cs =>
      simp only [resolve] at hres
      cases h : lookupChild n cs with
      | none => rw [h] at hres; simp at hres
      | some c =>
        rw [h] at hres
        have hc : (n, c) ∈ cs := lookupChild_mem h
        rw [wfT] at hwf
        simp only [Bool.and_eq_true] at hwf
        exact ih c u (wfL_child hwf.2 hc) hres

/-- Resolving one more component reaches the looked-up child. -/
theorem resolve_child {T : FNode} {p : List String}
    {cs : List (String × FNode)} {n : String} {c : FNode}
    (hres : resolve T p = some (.dir cs))
    (hok : namesOk (cs.map Prod.fst) = true) (hc : (n, c) ∈ cs) :
    resolve T (p ++ [n]) = some c := by
  rw [resolve_append, hres]
  simp [resolve, namesOk_lookup hok hc]

/-- A child is at most as deep as the maximum over the child list. -/
theorem depthL_child {c : FNode} :
    ∀ {cs : List (String × FNode)} {n : String},
      (n, c) ∈ cs → depthT c ≤ depthL cs := by
  intro cs
  induction cs with
  | nil => intro n h; simp at h
  | cons hd tl ih =>
    intro n hmem
    rcases hd with ⟨m, c0⟩
    rw [depthL]
    rcases List.mem_cons.mp hmem with heq | htl
    · rcases Prod.mk.injEq .. ▸ heq with ⟨_, h2⟩
      exact h2 ▸ Nat.le_max_left ..
    · exact Nat.le_trans (ih htl) (Nat.le_max_right ..)

/-- Correctness of the snapshot traversal: with enough fuel, visiting the
item at a resolved path produces exactly the file descendants with their
sizes. -/
theorem snapGo_spec :
    ∀ (fuel : Nat) (T : FNode) (p : List String) (t : FNode) (ps : String),
      wfT T = true → resolve T p = some t → depthT t < fuel →
      snapGo T fuel ⟨ps, p, nodeIsDir t, nodeSize t⟩ =
        some (fileDescendants t ps) := by
  intro fuel
  induction fuel with
  | zero => intro T p t ps _ _ hd; omega
  | succ f ih =>
    intro T p t ps hwfT hres hd
    cases t with
    | file sz =>
      rw [snapGo]
      simp [nodeIsDir, nodeSize, fileDescendants]
    | dir cs =>
      have hwfd : wfT (.dir cs) = true := wfT_resolve hwfT hres
      rw [wfT] at hwfd
      simp only [Bool.and_eq_true] at hwfd
      have hdl : depthL cs < f := by
        rw [depthT] at hd
        omega
      rw [snapGo]
      simp only [nodeIsDir, listAt, hres, List.map_map]
      suffices h : ∀ cs' : List (String × FNode), (∀ x ∈ cs', x ∈ cs) →
          snapList T f (cs'.map
            (childSnapItem ⟨ps, p, true, nodeSize (.dir cs)⟩ ∘
              fun nc => (nc.1, nodeIsDir nc.2, nodeSize nc.2))) =
            some (fileDescendantsL cs' ps) by
        rw [fileDescendants]
        exact h cs (fun x hx => hx)
      intro cs'
      induction cs' with
      | nil =>
        intro _
        rw [snapList.eq_def]
        rfl
      | cons hd tl ihl =>
        intro hsub
        rcases hd with ⟨n, c⟩
        have hmem : (n, c) ∈ cs := hsub _ (List.mem_cons_self ..)
        have hresc : resolve T (p ++ [n]) = some c :=
          resolve_child hres hwfd.1 hmem
        have hdc : depthT c < f :=
          Nat.lt_of_le_of_lt (depthL_child hmem) hdl
        have hgo := ih T (p ++ [n]) c (ps ++ "/" ++ n) hwfT hresc hdc
        have htl := ihl (fun x hx => hsub _ (List.mem_cons_of_mem _ hx))
        rw [List.map_cons, snapList.eq_def]
        simp only [Function.comp_apply, childSnapItem] at hgo ⊢
        rw [hgo, htl]
        simp [fileDescendantsL]

/-! ### No directory path is a key of the snapshot mapping -/

/-- Append of the empty string. -/
theorem string_append_empty (s : String) : s ++ "" = s :=
  String.ext (by simp [String.data_append])

/-- Associativity of string append. -/
theorem string_append_assoc (a b c : String) :
    a ++ b ++ c = a ++ (b ++ c) :=
  String.ext (by simp [String.data_append])

/-- A string suffix as produced by path concatenation: empty or starting
with the separator. -/
def slashSuffix (suf : String) : Prop :=
  suf = "" ∨ suf.data.head? = some '/'

/-- The size of a child node is below the size of its directory. -/
theorem sizeOf_child_lt {n : String} {c : FNode}
    {cs : List (String × FNode)} (h : (n, c) ∈ cs) :
    sizeOf c < sizeOf (FNode.dir cs) := by
  have h1 := List.sizeOf_lt_of_mem h
  simp only [Prod.mk.sizeOf_spec] at h1
  simp only [FNode.dir.sizeOf_spec]
  omega

/-- A key of the child-list part comes from one child. -/
theorem mem_fileDescendantsL {k : String} {s : Nat} :
    ∀ {cs : List (String × FNode)} {ps : String},
      (k, s) ∈ fileDescendantsL cs ps →
      ∃ nc ∈ cs, (k, s) ∈ fileDescendants nc.2 (ps ++ "/" ++ nc.1) := by
  intro cs
  induction cs with
  | nil => intro ps h; simp [fileDescendantsL] at h
  | cons hd tl ih =>
    intro ps h
    rw [fileDescendantsL] at h
    rcases List.mem_append.mp h with h1 | h2
    · exact ⟨hd, List.mem_cons_self .., h1⟩
    · obtain ⟨nc, hnc, hm⟩ := ih h2
      exact ⟨nc, List.mem_cons_of_mem _ hnc, hm⟩

/-- A directory path of the child-list part comes from one child. -/
theorem mem_dirDescPathsL {d : String} :
    ∀ {cs : List (String × FNode)} {ps : String},
      d ∈ dirDescPathsL cs ps →
      ∃ nc ∈ cs, d ∈ dirDescPaths nc.2 (ps ++ "/" ++ nc.1) := by
  intro cs
  induction cs with
  | nil => intro ps h; simp [dirDescPathsL] at h
  | cons hd tl ih =>
    intro ps h
    rw [dirDescPathsL] at h
    rcases List.mem_append.mp h with h1 | h2
    · exact ⟨hd, List.mem_cons_self .., h1⟩
    · obtain ⟨nc, hnc, hm⟩ := ih h2
      exact ⟨nc, List.mem_cons_of_mem _ hnc, hm⟩

/-- Every key of the snapshot mapping extends the starting path by a
suffix that is empty or begins with the separator. -/
theorem fileKey_shape :
    ∀ (N : Nat) (t : FNode), sizeOf t < N →
      ∀ (ps k : String) (s : Nat), (k, s) ∈ fileDescendants t ps →
        ∃ suf, k = ps ++ suf ∧ slashSuffix suf := by
  intro N
  induction N with
  | zero => intro t h; exact absurd h (Nat.not_lt_zero _)
  | succ N ih =>
    intro t hsz ps k s hmem
    cases t with
    | file sz =>
      rw [fileDescendants] at hmem
      simp only [List.mem_singleton, Prod.mk.injEq] at hmem
      exact ⟨"", by rw [hmem.1, string_append_empty], Or.inl rfl⟩
    | dir cs =>
      rw [fileDescendants] at hmem
      obtain ⟨⟨n, c⟩, hnc, hm⟩ := mem_fileDescendantsL hmem
      have hszc : sizeOf c < N := by
        have := sizeOf_child_lt hnc
        omega
      obtain ⟨suf', heq, _⟩ := ih c hszc (ps ++ "/" ++ n) k s hm
      refine ⟨"/" ++ n ++ suf', ?_, Or.inr ?_⟩
      · rw [heq, string_append_assoc, string_append_assoc,
          string_append_assoc]
      · simp [String.data_append]

/-- Every directory path extends the starting path by a suffix that is
empty or begins with the separator. -/
theorem dirPath_shape :
    ∀ (N : Nat) (t : FNode), sizeOf t < N →
      ∀ (ps d : String), d ∈ dirDescPaths t ps →
        ∃ suf, d = ps ++ suf ∧ slashSuffix suf := by
  intro N
  induction N with
  | zero => intro t h; exact absurd h (Nat.not_lt_zero _)
  | succ N ih =>
    intro t hsz ps d hmem
    cases t with
    | file sz => rw [dirDescPaths] at hmem; simp at hmem
    | dir cs =>
      rw [dirDescPaths] at hmem
      rcases List.mem_cons.mp hmem with heq | hL
      · exact ⟨"", by rw [string_append_empty]; exact heq, Or.inl rfl⟩
      · obtain ⟨⟨n, c⟩, hnc, hm⟩ := mem_dirDescPathsL hL
        have hszc : sizeOf c < N := by
          have := sizeOf_child_lt hnc
          omega
        obtain ⟨suf', heq, _⟩ := ih c hszc (ps ++ "/" ++ n) d hm
        refine ⟨"/" ++ n ++ suf', ?_, Or.inr ?_⟩
        · rw [heq, string_append_assoc, string_append_assoc,
            string_append_assoc]
        · simp [String.data_append]

/-- Two slash-free prefixes followed by empty-or-slash-headed suffixes can
only produce equal lists when the prefixes agree. -/
theorem slashfree_append_inj :
    ∀ (a : List Char), '/' ∉ a → ∀ (b : List Char), '/' ∉ b →
      ∀ (x y : List Char),
        (x = [] ∨ x.head? = some '/') → (y = [] ∨ y.head? = some '/') →
        a ++ x = b ++ y → a = b := by
  intro a
  induction a with
  | nil =>
    intro _ b hb x y hx _ heq
    cases b with
    | nil => rfl
    | cons c b' =>
      simp only [List.nil_append, List.cons_append] at heq
      rcases hx with rfl | hx
      · exact absurd heq.symm (List.cons_ne_nil _ _)
      · rw [heq] at hx
        simp only [List.head?_cons, Option.some.injEq] at hx
        subst hx
        exact absurd (List.mem_cons_self ..) hb
  | cons c a' ih =>
    intro ha b hb x y hx hy heq
    cases b with
    | nil =>
      simp only [List.cons_append, List.nil_append] at heq
      rcases hy with rfl | hy
      · exact absurd heq (List.cons_ne_nil _ _)
      · rw [← heq] at hy
        simp only [List.head?_cons, Option.some.injEq] at hy
        subst hy
        exact absurd (List.mem_cons_self ..) ha
    | cons d b' =>
      simp only [List.cons_append, List.cons.injEq] at heq
      obtain ⟨hcd, htail⟩ := heq
      subst hcd
      have ha' : '/' ∉ a' := fun hm => ha (List.mem_cons_of_mem _ hm)
      have hb' : '/' ∉ b' := fun hm => hb (List.mem_cons_of_mem _ hm)
      rw [ih ha' b' hb' x y hx hy htail]

/-- The data-list form of a `slashSuffix`. -/
theorem slashSuffix_data {suf : String} (h : slashSuffix suf) :
    suf.data = [] ∨ suf.data.head? = some '/' := by
  rcases h with rfl | h
  · exact Or.inl rfl
  · exact Or.inr h

/-- In a well-formed tree, no directory path is a key of the snapshot
mapping. -/
theorem dirPath_not_fileKey :
    ∀ (N : Nat) (t : FNode), sizeOf t < N → wfT t = true →
      ∀ (ps d : String) (s : Nat), d ∈ dirDescPaths t ps →
        (d, s) ∉ fileDescendants t ps := by
  intro N
  induction N with
  | zero => intro t h; exact absurd h (Nat.not_lt_zero _)
  | succ N ih =>
    intro t hsz hwf ps d s hdir hfile
    cases t with
    | file sz => rw [dirDescPaths] at hdir; simp at hdir
    | dir cs =>
      rw [wfT] at hwf
      simp only [Bool.and_eq_true] at hwf
      rw [fileDescendants] at hfile
      obtain ⟨⟨n2, c2⟩, hm2, hf2⟩ := mem_fileDescendantsL hfile
      have hsz2 : sizeOf c2 < N := by
        have := sizeOf_child_lt hm2
        omega
      rw [dirDescPaths] at hdir
      rcases List.mem_cons.mp hdir with rfl | hL
      · obtain ⟨suf, heq, _⟩ :=
          fileKey_shape (sizeOf c2 + 1) c2 (Nat.lt_succ_self _)
            (d ++ "/" ++ n2) d s hf2
        have hlen := congrArg String.length heq
        rw [String.length_append, String.length_append,
          String.length_append] at hlen
        have hone : ("/" : String).length = 1 := rfl
        omega
      · obtain ⟨⟨n1, c1⟩, hm1, hd1⟩ := mem_dirDescPathsL hL
        have hsz1 : sizeOf c1 < N := by
          have := sizeOf_child_lt hm1
          omega
        obtain ⟨suf1, heq1, hs1⟩ :=
          dirPath_shape (sizeOf c1 + 1) c1 (Nat.lt_succ_self _)
            (ps ++ "/" ++ n1) d hd1
        obtain ⟨suf2, heq2, hs2⟩ :=
          fileKey_shape (sizeOf c2 + 1) c2 (Nat.lt_succ_self _)
            (ps ++ "/" ++ n2) d s hf2
        have hn1 := namesOk_props hwf.1 n1 (List.mem_map.mpr ⟨(n1, c1), hm1, rfl⟩)
        have hn2 := namesOk_props hwf.1 n2 (List.mem_map.mpr ⟨(n2, c2), hm2, rfl⟩)
        have hdata : n1.data ++ suf1.data = n2.data ++ suf2.data := by
          have h12 : (ps ++ "/" ++ n1 ++ suf1).data =
              (ps ++ "/" ++ n2 ++ suf2).data := by
            rw [← heq1, ← heq2]
          simp only [String.data_append, List.append_assoc] at h12
          have h13 := List.append_cancel_left h12
          exact List.append_cancel_left h13
        have hname : n1.data = n2.data :=
          slashfree_append_inj n1.data hn1.2 n2.data hn2.2
            suf1.data suf2.data (slashSuffix_data hs1) (slashSuffix_data hs2)
            hdata
        have hname' : n1 = n2 := String.ext hname
        subst hname'
        have hc12 : c1 = c2 := namesOk_unique hwf.1 hm1 hm2
        subst hc12
        exact ih c1 hsz1 (wfL_child hwf.2 hm1) (ps ++ "/" ++ n1) d s hd1 hf2

/-! ## Claim theorems -/

/-- C3: for every source FileItem and every target (FileItem or path) whose
final path component differs from the source item's name, `copy` and `move`
both return `false` and issue zero HTTP requests. -/
theorem copy_move_reject_name_mismatch (fi : FileItem) (tgt : CMTarget)
    (resp : Option (Nat × BasicResp)) (h : fi.name ≠ tgt.lastName) :
    copy_m fi tgt resp = (false, []) ∧ move_m fi tgt resp = (false, []) := by
  constructor <;> simp [copy_m, move_m, get_copy_and_move_data, h]

/-- Witness for C3 at a concrete mismatching pair: source named `a.mkv`,
target path ending in `b.mkv`. -/
theorem copy_move_reject_name_mismatch_w :
    ({ name := "a.mkv", path := "/src/a.mkv" } : FileItem).name ≠
      (CMTarget.path "/dst/b.mkv").lastName ∧
    copy_m { name := "a.mkv", path := "/src/a.mkv" }
      (.path "/dst/b.mkv") none = (false, []) ∧
    move_m { name := "a.mkv", path := "/src/a.mkv" }
      (.path "/dst/b.mkv") none = (false, []) :=
  ⟨by decide,
   (copy_move_reject_name_mismatch _ _ none (by decide)).1,
   (copy_move_reject_name_mismatch _ _ none (by decide)).2⟩

/-- C10: `copy` and `move` share their local validation and payload
computation: they are rejected locally (no request, `false`) under exactly
the same condition, their boolean results always agree, and when accepted
both send the body `src_dir` = parent of the item's path, `dst_dir` =
parent of the target, `names = [fileitem.name]`, differing only in the
endpoint path. -/
theorem copy_move_equivalent (fi : FileItem) (tgt : CMTarget)
    (resp : Option (Nat × BasicResp)) :
    ((copy_m fi tgt resp).2 = [] ↔ (move_m fi tgt resp).2 = []) ∧
    ((copy_m fi tgt resp).2 = [] → (copy_m fi tgt resp).1 = false) ∧
    (copy_m fi tgt resp).1 = (move_m fi tgt resp).1 ∧
    (fi.name = tgt.lastName →
      (copy_m fi tgt resp).2 =
        [⟨"/api/fs/copy", ⟨pyParentPosix fi.path, tgt.parentDir, [fi.name]⟩⟩] ∧
      (move_m fi tgt resp).2 =
        [⟨"/api/fs/move", ⟨pyParentPosix fi.path, tgt.parentDir, [fi.name]⟩⟩]) := by
  by_cases h : fi.name = tgt.lastName <;>
    simp [copy_m, move_m, get_copy_and_move_data, h]

/-- Witness for C10 at a concrete accepted pair (matching names). -/
theorem copy_move_equivalent_w :
    ({ name := "a.mkv", path := "/src/a.mkv" } : FileItem).name =
      (CMTarget.path "/dst/a.mkv").lastName ∧
    (copy_m { name := "a.mkv", path := "/src/a.mkv" }
        (.path "/dst/a.mkv") none).2 =
      [⟨"/api/fs/copy", ⟨"/src", "/dst", ["a.mkv"]⟩⟩] :=
  ⟨by decide,
   by
    rw [((copy_move_equivalent
      { name := "a.mkv", path := "/src/a.mkv" } (.path "/dst/a.mkv")
      none).2.2.2 (by decide)).1]
    decide⟩

/-- C2 counterexample: `upload` receiving HTTP status 200 with envelope
`{code: 500, message: \x22x\x22}` returns the file item, i.e. reports success
instead of the no-result sentinel. -/
theorem upload_ignores_envelope_code :
    upload_m (some (200, ⟨500, "x"⟩)) { type := "dir", path := "/t" } =
      .ok (some { type := "dir", path := "/t" }) := rfl

/-- C2 (amended): on an HTTP-200 response whose envelope code is not 200,
every envelope-parsing operation (list, getItem, createFolder, delete,
rename, copy, move, download) logs and returns the no-result sentinel or
`false` without raising; `upload`, however, never parses the envelope and
reports success (returns the item) for any HTTP-200 response, and
`generateToken` does not return a sentinel: it proceeds to extract
`data.token`, raising when `data` is null; `snapshot`'s traversal iterates
the result of `list` without a guard, so a failed `list` call
mid-traversal crashes the traversal instead of degrading. -/
theorem envelope_failure_degrades (c : Int) (hc : c ≠ 200) (msg : String)
    (fi : FileItem) (tgt : CMTarget) (ps base lp : String)
    (ld : Option ListData) (gd : Option GetData) (raw ex : Bool) :
    list_m (some (200, ⟨c, msg, ld⟩)) fi = .ok none ∧
    get_item_m (some (200, ⟨c, msg, gd⟩)) ps = .ok none ∧
    create_folder_m (some (200, ⟨c, msg⟩)) ps = none ∧
    delete_m (some (200, ⟨c, msg⟩)) = false ∧
    rename_m (some (200, ⟨c, msg⟩)) = false ∧
    (copy_m fi tgt (some (200, ⟨c, msg⟩))).1 = false ∧
    (move_m fi tgt (some (200, ⟨c, msg⟩))).1 = false ∧
    download_m (some (200, ⟨c, msg, gd⟩)) base fi lp raw ex = .ok ⟨none, none⟩ ∧
    upload_m (some (200, ⟨c, msg⟩)) fi = .ok (some fi) ∧
    (generate_token_resp 200
        (.obj [("code", .num c), ("message", .str msg), ("data", .null)])).1 =
      .error .typeError ∧
    (∀ (T : FNode) (f : Nat) (it : SnapItem), it.isDir = true →
      listAt T it.comps = none → snapGo T (f + 1) it = none) := by
  refine ⟨?_, ?_, ?_, ?_, ?_, ?_, ?_, ?_, ?_, ?_, ?_⟩
  · simp [list_m, hc]
  · simp [get_item_m, hc]
  · simp [create_folder_m, hc]
  · simp [delete_m, hc]
  · simp [rename_m, respTruthy, hc]
  · rcases h : get_copy_and_move_data fi tgt with ⟨s, d, ns, v⟩
    cases v <;> simp [copy_m, h, cmRespOk, hc]
  · rcases h : get_copy_and_move_data fi tgt with ⟨s, d, ns, v⟩
    cases v <;> simp [move_m, h, cmRespOk, hc]
  · simp [download_m, respTruthy, hc]
  · simp [upload_m]
  · simp [generate_token_resp, jIndex, jEq200, hc, List.lookup]
  · intro T f it hdir hlist
    rw [snapGo]
    simp [hdir, hlist]

/-- C4: `snapshot(p)` returns the mapping that assigns to each
non-directory descendant of `p` (found by depth-first traversal via
`getItem` and repeated `list` calls) its size; the mapping contains no key
for any directory; and the result is the empty mapping when `getItem(p)`
yields no result.  Stated over a well-formed remote tree with enough fuel
for the (terminating) traversal. -/
theorem snapshot_maps_file_descendants (T : FNode) (p : List String)
    (fuel : Nat) :
    (resolve T p = none → snapshotS T p fuel = some []) ∧
    (∀ t, wfT T = true → resolve T p = some t → depthT t < fuel →
      snapshotS T p fuel =
        some (fileDescendants t (posixRender true p)) ∧
      ∀ d ∈ dirDescPaths t (posixRender true p), ∀ s,
        (d, s) ∉ fileDescendants t (posixRender true p)) := by
  constructor
  · intro h
    rw [snapshotS, h]
  · intro t hwf hres hd
    constructor
    · rw [snapshotS, hres]
      exact snapGo_spec fuel T p t (posixRender true p) hwf hres hd
    · intro d hdir s
      exact dirPath_not_fileKey (sizeOf t + 1) t (Nat.lt_succ_self _)
        (wfT_resolve hwf hres) (posixRender true p) d s hdir

/-- Witness for C4 on the spec's example tree
`root -> (a.txt (10 bytes), sub -> b.txt (20 bytes))`: the mapping holds
exactly the two files, and the directory paths `/root` and `/root/sub` are
not keys. -/
theorem snapshot_maps_file_descendants_w :
    snapshotS
        (.dir [("root", .dir [("a.txt", .file 10),
                              ("sub", .dir [("b.txt", .file 20)])])])
        ["root"] 5 =
      some [("/root/a.txt", 10), ("/root/sub/b.txt", 20)] ∧
    ∀ s, ("/root/sub", s) ∉
      fileDescendants
        (.dir [("a.txt", .file 10), ("sub", .dir [("b.txt", .file 20)])])
        "/root" := by
  have h := (snapshot_maps_file_descendants
    (.dir [("root", .dir [("a.txt", .file 10),
                          ("sub", .dir [("b.txt", .file 20)])])])
    ["root"] 5).2
    (.dir [("a.txt", .file 10), ("sub", .dir [("b.txt", .file 20)])])
    (by rfl) (by rfl) (by decide)
  constructor
  · rw [h.1]
    rfl
  · intro s
    exact h.2 "/root/sub" (by decide) s

/-- C5: `currentToken` returns the configured static token whenever a
non-empty one is set, issuing no login request and leaving the cache
untouched; otherwise it returns the cached generated token, the TTL is two
days minus five minutes, two calls within the TTL issue at most one login
request in total, and a call after expiry issues exactly one new login
request. -/
theorem token_cache_behavior (conf : AlistConf) (l1 l2 : String)
    (t1 t2 : Nat) (cache : TokenCache) :
    tokenTTL = 172500 ∧
    (∀ t, conf.token = some t → t ≠ "" →
      get_valuable_toke conf l1 t1 cache = (t, cache, 0)) ∧
    (conf.token = none ∨ conf.token = some "" →
      t2 < t1 + tokenTTL →
      (get_valuable_toke conf l1 t1 cache).2.2 +
        (get_valuable_toke conf l2 t2
          (get_valuable_toke conf l1 t1 cache).2.1).2.2 ≤ 1) ∧
    (conf.token = none ∨ conf.token = some "" →
      ∀ v exp, cache = some (v, exp) → exp ≤ t1 →
      (get_valuable_toke conf l1 t1 cache).2.2 = 1) := by
  refine ⟨rfl, ?_, ?_, ?_⟩
  · intro t ht hne
    simp [get_valuable_toke, ht, hne]
  · rintro (ht | ht) hlt <;>
    · simp only [get_valuable_toke, ht, ne_eq, not_true_eq_false, if_false]
      rcases cache with _ | ⟨v, exp⟩
      · simp only [generate_token_cached]
        have h2 : t2 < t1 + tokenTTL := hlt
        simp [h2]
      · by_cases h1 : t1 < exp
        · simp only [generate_token_cached, h1, if_true]
          by_cases h2 : t2 < exp <;> simp [h2]
        · simp only [generate_token_cached, h1, if_false]
          have h2 : t2 < t1 + tokenTTL := hlt
          simp [h2]
  · rintro (ht | ht) v exp hc hexp <;>
    · subst hc
      have h1 : ¬ t1 < exp := by omega
      simp [get_valuable_toke, ht, generate_token_cached, h1]

/-- Witness for C5: a static token is returned unchanged; with no static
token, a second call 10 seconds after a first call on an empty cache issues
no further login; a call at the expiry instant regenerates. -/
theorem token_cache_behavior_w :
    get_valuable_toke { token := some "perm" } "gen" 0 none =
      ("perm", none, 0) ∧
    (get_valuable_toke { token := none } "gen" 100 none).2.2 +
      (get_valuable_toke { token := none } "gen" 110
        (get_valuable_toke { token := none } "gen" 100 none).2.1).2.2 ≤ 1 ∧
    (get_valuable_toke { token := none } "gen" 172600
      (some ("old", 172600))).2.2 = 1 :=
  ⟨(token_cache_behavior { token := some "perm" } "gen" "gen" 0 0 none).2.1
      "perm" rfl (by decide),
   (token_cache_behavior { token := none } "gen" "gen" 100 110 none).2.2.1
      (Or.inl rfl) (by decide),
   (token_cache_behavior { token := none } "gen" "gen" 172600 0
      (some ("old", 172600))).2.2.2 (Or.inl rfl) "old" 172600 rfl
      (by decide)⟩

/-- C9 counterexample: on the envelope `{code: 500, message: \x22x\x22}` (no
usable `data`), `generateToken` logs the critical error and the
unconditional debug entry, but then raises (`result[\x22data\x22]` fails)
instead of continuing without an exception. -/
theorem generate_token_raises_on_error_envelope :
    (generate_token_resp 200
        (.obj [("code", .num 500), ("message", .str "x")])).1 =
      .error .keyError ∧
    (generate_token_resp 200
        (.obj [("code", .num 500), ("message", .str "x")])).2 =
      [.critical, .debug] := ⟨rfl, rfl⟩

/-- C9 (amended): on a login response with non-200 HTTP status,
`generateToken` logs a warning and still parses the body (the produced
value is the same as with status 200); on an envelope whose code is not
200 it logs a critical-level error and does not short-circuit: it proceeds
to extract `data.token`, returning that token when present (and raising a
key or type error when `data` is null or the keys are missing); on success
it returns the token string from `data.token`. -/
theorem generate_token_behavior (st : Nat) (hst : st ≠ 200)
    (body c : Json) (msg tok : String) (hc : jEq200 c = false) :
    ((generate_token_resp st body).1 = (generate_token_resp 200 body).1 ∧
      .warning ∈ (generate_token_resp st body).2) ∧
    (generate_token_resp st
        (.obj [("code", c), ("message", .str msg),
               ("data", .obj [("token", .str tok)])])).1 = .ok (.str tok) ∧
    .critical ∈ (generate_token_resp st
        (.obj [("code", c), ("message", .str msg),
               ("data", .obj [("token", .str tok)])])).2 ∧
    (generate_token_resp 200
        (.obj [("code", .num 200), ("message", .str msg),
               ("data", .obj [("token", .str tok)])])) =
      (.ok (.str tok), [.debug]) := by
  refine ⟨⟨?_, ?_⟩, ?_, ?_, ?_⟩
  · simp only [generate_token_resp]
    rcases jIndex body "code" with e | cv
    · rfl
    · dsimp only
      rcases jIndex body "data" with e | dv
      · rfl
      · dsimp only
        rcases jIndex dv "token" with e | tv <;> rfl
  · simp only [generate_token_resp, hst, if_true, ne_eq]
    rcases h : jIndex body "code" with e | cv <;> simp [h]
    rcases h2 : jIndex body "data" with e | dv <;> simp [h2]
    rcases h3 : jIndex dv "token" with e | tv <;> simp [h3]
  · simp [generate_token_resp, jIndex, List.lookup, hc]
  · simp [generate_token_resp, jIndex, List.lookup, hc]
  · simp [generate_token_resp, jIndex, List.lookup, jEq200]

/-- Witness for C9's amended theorem at HTTP status 500, envelope code 500,
token `abcd`. -/
theorem generate_token_behavior_w :
    (generate_token_resp 500
        (.obj [("code", .num 500), ("message", .str "x"),
               ("data", .obj [("token", .str "abcd")])])).1 =
      .ok (.str "abcd") ∧
    .critical ∈ (generate_token_resp 500
        (.obj [("code", .num 500), ("message", .str "x"),
               ("data", .obj [("token", .str "abcd")])])).2 :=
  ⟨(generate_token_behavior 500 (by decide)
      (.obj [("code", .num 500), ("message", .str "x"),
             ("data", .obj [("token", .str "abcd")])])
      (.num 500) "x" "abcd" (by decide)).2.1,
   (generate_token_behavior 500 (by decide)
      (.obj [("code", .num 500), ("message", .str "x"),
             ("data", .obj [("token", .str "abcd")])])
      (.num 500) "x" "abcd" (by decide)).2.2.1⟩

/-- C1 counterexample: with only the root existing remotely, `getFolder`
on `/a/b` (whose item does not exist) issues two mkdir requests, the first
of which creates the missing ancestor `/a`. -/
theorem get_folder_two_creates :
    (["a", "b"] ∉ ([[]] : DirSet)) ∧
    (get_folderS [[]] ["a", "b"]).map (fun r => mkdirsOf r.2.2) =
      some [["a"], ["a", "b"]] ∧
    [["a"], ["a", "b"]].length = 2 := by
  refine ⟨by decide, ?_, rfl⟩
  rw [get_folderS, get_folderS, get_folderS]
  simp [get_itemS, create_folderS, mkdirsOf]

/-- C1 (amended): `getFolder(p)` issues one create call directly for `p`
using the parent obtained via `getParent`; but `getParent` recursively
invokes `getFolder` on the parent path, so the call transitively creates
the whole contiguous chain of missing ancestors of `p` — one mkdir per
missing directory, ordered shortest first — rather than leaving missing
ancestors to the caller, and returns the item for `p`. -/
theorem get_folder_creates_missing_chain (fs : DirSet) (p : List String)
    (hroot : [] ∈ fs) :
    ∃ fs' tr, get_folderS fs p = some (some p, fs', tr) ∧
      mkdirsOf tr = missingChain fs p := by
  suffices h : ∀ n (q : List String), q.length ≤ n →
      ∃ fs' tr, get_folderS fs q = some (some q, fs', tr) ∧
        mkdirsOf tr = missingChain fs q from h p.length p le_rfl
  intro n
  induction n with
  | zero =>
    intro q hq
    have hq0 : q = [] := List.eq_nil_of_length_eq_zero (Nat.le_zero.mp hq)
    subst hq0
    refine ⟨fs, [.fsGet []], ?_, ?_⟩
    · rw [get_folderS]
      simp [hroot, get_itemS]
    · rw [missingChain]
      simp [hroot, mkdirsOf]
  | succ n ih =>
    intro q hq
    by_cases hmem : q ∈ fs
    · refine ⟨fs, [.fsGet q], ?_, ?_⟩
      · rw [get_folderS]
        simp [hmem, get_itemS]
      · rw [missingChain]
        simp [hmem, mkdirsOf]
    · have hne : q ≠ [] := by
        rintro rfl
        exact hmem hroot
      have hlen : q.dropLast.length ≤ n := by
        have := List.length_dropLast q
        have hpos : 0 < q.length := List.length_pos.mpr hne
        omega
      obtain ⟨fs1, t1, heq, hmk⟩ := ih q.dropLast hlen
      have hlast : q.dropLast ++ [q.getLast hne] = q :=
        List.dropLast_append_getLast hne
      refine ⟨q :: fs1, .fsGet q :: (t1 ++ [.fsMkdir q, .fsGet q]), ?_, ?_⟩
      · rw [get_folderS]
        simp only [hmem, if_false, hne, dite_false, heq, create_folderS,
          get_itemS, hlast, List.mem_cons, true_or, if_true, dif_neg]
      · rw [missingChain]
        simp only [hmem, if_false, hne, if_true, dif_neg, ite_false]
        simp only [mkdirsOf, List.filterMap_append, List.filterMap_cons]
        simpa [mkdirsOf] using hmk

/-- Witness for C1's amended theorem: with only the root existing, the
chain for `/a/b` is created in full. -/
theorem get_folder_creates_missing_chain_w :
    ([] ∈ ([[]] : DirSet)) ∧
    ∃ fs' tr, get_folderS [[]] ["a", "b"] = some (some ["a", "b"], fs', tr) ∧
      mkdirsOf tr = missingChain [[]] ["a", "b"] :=
  ⟨by decide, get_folder_creates_missing_chain [[]] ["a", "b"] (by decide)⟩

/-- C6: `list` returns the no-result sentinel on non-200 HTTP status and on
envelope code other than 200, while `list` on an existing empty directory
returns the empty sequence, and the two outcomes are distinguishable.  On
transport failure, however, the code reads `resp.status_code` without the
`if resp is None` guard every sibling method has, so it raises
`AttributeError` instead of returning the sentinel. -/
theorem list_failure_handling (fi : FileItem) (st : Nat) (hst : st ≠ 200)
    (body : ListResp) (c : Int) (hc : c ≠ 200) (msg msg' : String)
    (ld : Option ListData) :
    list_m none fi = .error .attributeError ∧
    list_m (some (st, body)) fi = .ok none ∧
    list_m (some (200, ⟨c, msg, ld⟩)) fi = .ok none ∧
    list_m (some (200, ⟨200, msg', some ⟨[]⟩⟩)) fi = .ok (some []) ∧
    (.ok (some ([] : List FileItem)) ≠
      (.ok none : Except PyErr (Option (List FileItem)))) := by
  refine ⟨rfl, ?_, ?_, rfl, by simp⟩
  · simp [list_m, hst]
  · simp [list_m, hc]

/-- Witness for C6 at HTTP status 404 and envelope code 500. -/
theorem list_failure_handling_w :
    (404 : Nat) ≠ 200 ∧ (500 : Int) ≠ 200 ∧
    list_m none { type := "dir", path := "/t" } = .error .attributeError ∧
    list_m (some (404, ⟨200, "ok", none⟩)) { type := "dir", path := "/t" } =
      .ok none ∧
    list_m (some (200, ⟨500, "err", none⟩)) { type := "dir", path := "/t" } =
      .ok none ∧
    list_m (some (200, ⟨200, "ok", some ⟨[]⟩⟩)) { type := "dir", path := "/t" } =
      .ok (some []) :=
  ⟨by decide, by decide,
   (list_failure_handling { type := "dir", path := "/t" } 404 (by decide)
      ⟨200, "ok", none⟩ 500 (by decide) "err" "ok" none).1,
   (list_failure_handling { type := "dir", path := "/t" } 404 (by decide)
      ⟨200, "ok", none⟩ 500 (by decide) "err" "ok" none).2.1,
   (list_failure_handling { type := "dir", path := "/t" } 404 (by decide)
      ⟨200, "ok", none⟩ 500 (by decide) "err" "ok" none).2.2.1,
   (list_failure_handling { type := "dir", path := "/t" } 404 (by decide)
      ⟨200, "ok", none⟩ 500 (by decide) "err" "ok" none).2.2.2.1⟩

/-- C7: on a successful list response, `list` returns exactly one FileItem
per entry of `data.content`; each item's path is `fileitem.path + "/" +
entry.name`, its type is `dir` exactly when `entry.is_dir` holds, and its
basename and extension are the stem and suffix of `entry.name` — the two
halves of the split of the name at its last separator, which concatenate
back to the final component of the name. -/
theorem list_success_mapping (fi : FileItem) (msg : String)
    (content : List AlistEntry) :
    list_m (some (200, ⟨200, msg, some ⟨content⟩⟩)) fi =
      .ok (some (content.map (mkListItem fi))) ∧
    (content.map (mkListItem fi)).length = content.length ∧
    ∀ e ∈ content,
      (mkListItem fi e).path = fi.path ++ "/" ++ e.name ∧
      ((mkListItem fi e).type = "dir" ↔ e.is_dir = true) ∧
      (mkListItem fi e).name = e.name ∧
      (mkListItem fi e).size = e.size ∧
      (mkListItem fi e).basename = pyStem e.name ∧
      (mkListItem fi e).extension = pySuffix e.name ∧
      (mkListItem fi e).basename ++ (mkListItem fi e).extension =
        pyName e.name := by
  refine ⟨rfl, by simp, ?_⟩
  intro e _
  refine ⟨rfl, ?_, rfl, rfl, rfl, rfl, pyStem_append_pySuffix e.name⟩
  cases h : e.is_dir <;> simp [mkListItem, h]

/-- Witness for C7 at a one-entry listing. -/
theorem list_success_mapping_w :
    list_m (some (200, ⟨200, "success",
        some ⟨[⟨"Alist V3.md", 1592, false, "2024", ""⟩]⟩⟩))
      { type := "dir", path := "/t" } =
      .ok (some [{ storage := "alist", type := "file",
                   path := "/t/Alist V3.md", name := "Alist V3.md",
                   basename := "Alist V3", extension := ".md", size := 1592,
                   modify_time := "2024", thumbnail := "" }]) ∧
    ({ type := "dir", path := "/t" } : FileItem).path ++ "/" ++ "Alist V3.md" =
      "/t/Alist V3.md" :=
  ⟨by
    rw [(list_success_mapping { type := "dir", path := "/t" } "success"
      [⟨"Alist V3.md", 1592, false, "2024", ""⟩]).1]
    rfl,
   by decide⟩

/-- C8: when `download` is called with `raw_url=False` and the metadata
fetch succeeds, the download URL is the base URL joined with
`"/d" + fileitem.path`, with `"?sign=" + sign` appended exactly when the
returned sign is non-empty; the local path is returned exactly when the
file exists after the write, and no result otherwise. -/
theorem download_url_and_result (base lp msg : String) (fi : FileItem)
    (gd : GetData) (ex : Bool) :
    download_m (some (200, ⟨200, msg, some gd⟩)) base fi lp false ex =
      .ok ⟨if ex then some lp else none,
           some (if gd.sign ≠ "" then
                   adaptRequestUrl base ("/d" ++ fi.path) ++ "?sign=" ++ gd.sign
                 else adaptRequestUrl base ("/d" ++ fi.path))⟩ ∧
    (gd.sign = "" →
      download_m (some (200, ⟨200, msg, some gd⟩)) base fi lp false ex =
        .ok ⟨if ex then some lp else none,
             some (adaptRequestUrl base ("/d" ++ fi.path))⟩) ∧
    ((download_m (some (200, ⟨200, msg, some gd⟩)) base fi lp false ex =
        .ok ⟨some lp, some (if gd.sign ≠ "" then
                   adaptRequestUrl base ("/d" ++ fi.path) ++ "?sign=" ++ gd.sign
                 else adaptRequestUrl base ("/d" ++ fi.path))⟩) ↔ ex = true) := by
  refine ⟨?_, ?_, ?_⟩
  · by_cases hs : gd.sign = "" <;> cases ex <;>
      simp_all [download_m, respTruthy]
  · intro h
    cases ex <;> simp_all [download_m, respTruthy]
  · by_cases hs : gd.sign = "" <;> cases ex <;>
      simp_all [download_m, respTruthy]

/-- Witness for C8 with a non-empty sign and an existing file. -/
theorem download_url_and_result_w :
    download_m (some (200, ⟨200, "success",
        some ⟨"f.mp4", 9, false, "1970", "", "sg", "raw"⟩⟩))
      "http://h:5244" { type := "file", path := "/t/f.mp4" } "/tmp/f.mp4"
      false true =
      .ok ⟨some "/tmp/f.mp4", some "http://h:5244/d/t/f.mp4?sign=sg"⟩ :=
  by
    rw [(download_url_and_result "http://h:5244" "/tmp/f.mp4" "success"
      { type := "file", path := "/t/f.mp4" }
      ⟨"f.mp4", 9, false, "1970", "", "sg", "raw"⟩ true).1]
    rfl
theorem envelope_failure_degrades_w :
    (500 : Int) ≠ 200 ∧
    delete_m (some (200, ⟨500, "x"⟩)) = false ∧
    upload_m (some (200, ⟨500, "x"⟩)) { type := "file", path := "/f" } =
      .ok (some { type := "file", path := "/f" }) :=
  ⟨by decide,
   (envelope_failure_degrades 500 (by decide) "x" { type := "file", path := "/f" }
      (.path "/f") "" "" "" none none false false).2.2.2.1,
   (envelope_failure_degrades 500 (by decide) "x" { type := "file", path := "/f" }
      (.path "/f") "" "" "" none none false false).2.2.2.2.2.2.2.2.1⟩
